import Mathlib

/-!
Shallow embedding of `CSVDataTable.py` (class `CSVDataTable`, extending
`BaseDataTable`): an in-memory table of records loaded from a CSV file.

A Python record is a dict from column name (string) to a scalar value; we
model scalar values by `Value` (a string or Python `None`), and a dict by an
insertion-ordered association list with distinct keys, looked up by
`List.lookup`.  Methods that can raise are embedded in `Except PyErr`.
The two stateful file operations, `save` and `_load`, are embedded as
functions on an explicit file value: a file is a `List Line` with
`Line := List String` (the header line first), the fields of each line as
the `csv` module delimits them.  The source opens its files in text mode
without suppressing newline translation, so reading rewrites each carriage
return inside a field to a line feed before the `csv` reader parses it;
`load` applies exactly that translation (`univNewlines`) to every field.
-/

namespace CSVDataTable

/-- A Python scalar value as it appears in rows and templates: a string, or
`None` (written `Value.null`). -/
inductive Value where
  | str : String → Value
  | null : Value
deriving DecidableEq, Repr

/-- A row: a Python dict from column name to value, modelled as an
insertion-ordered association list (keys distinct in any dict the program
builds). -/
abbrev Record := List (String × Value)

/-- A template: a partial column-to-value mapping, same representation. -/
abbrev Template := List (String × Value)

/-- Python exceptions the embedded methods can raise. -/
inductive PyErr where
  | keyError : String → PyErr
  | indexError : PyErr
  | valueError : PyErr
deriving DecidableEq, Repr

/-- Python `row.get(k, None)`: the value at column `k`, or `None` when the
column is absent. -/
def rowGet (row : Record) (k : String) : Value :=
  (row.lookup k).getD Value.null

/-- Python dict assignment `d[k] = v` on an insertion-ordered association
list: overwrite in place when the key exists, else append. -/
def setKey : Record → String → Value → Record
  | [], k, v => [(k, v)]
  | (k0, v0) :: rest, k, v =>
      if k0 = k then (k, v) :: rest else (k0, v0) :: setKey rest k v

/-- `CSVDataTable.matches_template(row, template)` (lines 120-130): `True`
when the template is `None`; otherwise `False` as soon as some template pair
`(k, v)` has `v != row.get(k, None)`. -/
def matches_template (row : Record) (template : Option Template) : Bool :=
  match template with
  | none => true
  | some t => t.all fun p => p.2 == rowGet row p.1

/-- The loop of `CSVDataTable._project`: `for f in field_list:
result[f] = row[f]`, raising `KeyError(f)` when `f` is not a key of `row`.
`acc` is the `result` dict built so far. -/
def projectLoop (row : Record) : List String → Record → Except PyErr Record
  | [], acc => Except.ok acc
  | f :: fs, acc =>
      match row.lookup f with
      | none => Except.error (PyErr.keyError f)
      | some v => projectLoop row fs (setKey acc f v)

/-- `CSVDataTable._project(row, field_list)` (lines 107-118): the original
row when `field_list` is `None`, else a fresh dict holding `row[f]` for each
requested field, raising `KeyError` at the first absent field. -/
def project (row : Record) (field_list : Option (List String)) :
    Except PyErr Record :=
  match field_list with
  | none => Except.ok row
  | some fl => projectLoop row fl []

/-- The loop of `CSVDataTable.find_by_template`: iterate the given list (the
reversed row list), keep rows matching the template, project each, append in
iteration order; a `KeyError` from projection propagates. -/
def ftLoop (template : Option Template) (field_list : Option (List String)) :
    List Record → Except PyErr (List Record)
  | [] => Except.ok []
  | r :: rest =>
      if matches_template r template then
        match project r field_list with
        | Except.error e => Except.error e
        | Except.ok p => Except.map (fun l => p :: l) (ftLoop template field_list rest)
      else ftLoop template field_list rest

/-- `CSVDataTable.find_by_template(template, field_list, ...)` (lines
147-166): scans `reversed(self._rows)` and returns the matching rows,
projected.  `limit`, `offset`, `order_by` are accepted and ignored by the
source, so they are omitted here. -/
def find_by_template (rows : List Record) (template : Option Template)
    (field_list : Option (List String)) : Except PyErr (List Record) :=
  ftLoop template field_list rows.reverse

/-- `CSVDataTable.insert(new_record)` (lines 216-224) is an unimplemented
stub: its body is only a docstring and a comment, so it appends nothing,
raises nothing, and returns `None`.  The row list after the call is the row
list before it, for every argument. -/
def insert (rows : List Record) (new_record : Record) : List Record :=
  rows

/-- `CSVDataTable.find_by_primary_key(key_fields, field_list)` (lines
132-145) is an unimplemented stub: it builds `dict(zip(self._key_columns,
key_fields))` (Python `zip` silently truncates on a length mismatch, so no
error is raised) and then executes a bare `return`, yielding `None` for
every input without consulting the rows. -/
def find_by_primary_key (key_columns : List String) (rows : List Record)
    (key_fields : List Value) (field_list : Option (List String)) :
    Option Record :=
  let d := key_columns.zip key_fields
  none

/-- `CSVDataTable.delete_by_template(template)` (lines 179-189) is an
unimplemented stub: `counter = 0` followed by `return counter`, deleting
nothing.  Result: the returned count and the row list after the call. -/
def delete_by_template (rows : List Record) (template : Option Template) :
    Nat × List Record :=
  (0, rows)

/-- One line of the backing CSV file, already split into fields by the `csv`
layer.  Writing emits each field verbatim, quoted as needed (a list of zero
fields becomes a blank line); but because the source opens its files in
text mode without suppressing newline translation, every carriage return
inside a field — alone or in a CRLF pair — reaches the reader as a line
feed, so `load` applies that translation to each field it reads. -/
abbrev Line := List String

/-- The field `csv.DictWriter` emits for a column of a row: the row's string
value, the empty field for a `None` value, and the empty field (the writer's
`restval` default) for a column missing from the row. -/
def cellOf : Option Value → String
  | none => ""
  | some Value.null => ""
  | some (Value.str s) => s

/-- The fields `csv.DictWriter.writerow` emits for one row: the row's value
at each header column, in header order. -/
def writeRowCells (header : List String) (r : Record) : Line :=
  header.map fun h => cellOf (r.lookup h)

/-- `csv.DictWriter`'s `extrasaction` check: `writerow` raises `ValueError`
when the row has a key outside the writer's fieldnames. -/
def hasExtraField (header : List String) (r : Record) : Bool :=
  !(r.all fun p => header.contains p.1)

/-- The row-writing loop of `CSVDataTable.save`: write each row in order;
on a row with an extra field, `writerow` raises `ValueError` and the rows
already written stay in the file. -/
def saveLoop (header : List String) : List Record → List Line × Option PyErr
  | [] => ([], none)
  | r :: rest =>
      if hasExtraField header r then ([], some PyErr.valueError)
      else
        let s := saveLoop header rest
        (writeRowCells header r :: s.1, s.2)

/-- `CSVDataTable.save()` (lines 90-101): opens the backing file in mode
`"w"` — truncating it at once — then takes `self._rows[0].keys()` as the
header, which raises `IndexError` on an empty row list (the file is left
truncated), then writes the header line and every row.  Result: the file
content after the call, and the exception raised, if any. -/
def save (rows : List Record) : List Line × Option PyErr :=
  match rows with
  | [] => ([], some PyErr.indexError)
  | r0 :: _ =>
      let header := r0.map Prod.fst
      let s := saveLoop header rows
      (header :: s.1, s.2)

/-- One row as `csv.DictReader` builds it: `dict(zip(fieldnames, cells))`,
with the reader's `restval` (`None`) for header columns beyond the line's
fields.  Fields beyond the header go under the reader's non-string
`restkey` and are unreachable by any string column name, so they are
dropped. -/
def readRow (header : List String) (cells : Line) : Record :=
  (header.zip cells).map (fun p => (p.1, Value.str p.2))
    ++ (header.drop cells.length).map fun h => (h, Value.null)

/-- Universal-newline translation on the characters of one field: a CRLF
pair and a lone CR both become LF, exactly the rewriting the text layer
performs on read before the `csv` reader sees the file. -/
def univNewlinesAux : List Char → List Char
  | [] => []
  | [c] => [if c = '\r' then '\n' else c]
  | c1 :: c2 :: rest =>
      if c1 = '\r' then
        if c2 = '\n' then '\n' :: univNewlinesAux rest
        else '\n' :: univNewlinesAux (c2 :: rest)
      else c1 :: univNewlinesAux (c2 :: rest)

/-- Universal-newline translation of one field value. -/
def univNewlines (s : String) : String := String.mk (univNewlinesAux s.data)

/-- The text-layer translation as it lands on a parsed line: every field
translated. -/
def translateLine (l : Line) : Line := l.map univNewlines

/-- Whether a string holds no carriage return; such strings pass the read
translation unchanged. -/
def noCR (s : String) : Bool := s.data.all fun c => c != '\r'

/-- Whether a value is a carriage-return-free string; used to state the
round-trip hypotheses decidably. -/
def strNoCR : Value → Bool
  | Value.str s => noCR s
  | Value.null => false

/-- `CSVDataTable._load()` (lines 77-88): read the file with
`csv.DictReader` over a file opened in mode `"r"` in text mode, so
universal-newline translation rewrites each carriage return in a field to
a line feed before parsing; the first line is the header, blank lines are
skipped, and one row is appended per remaining line in file order. -/
def load (file : List Line) : List Record :=
  match file with
  | [] => []
  | header :: lines =>
      ((lines.map translateLine).filter fun l => !l.isEmpty).map
        (readRow (translateLine header))

/-- Modelled from the spec: the spec's own wording of template matching —
"a record matches a template iff, for every (column, value) pair in the
template, the record HAS that column with a value equal to that value" —
stated for comparison with the source's `matches_template`. -/
def specMatches (row : Record) (template : Option Template) : Bool :=
  match template with
  | none => true
  | some t =>
      t.all fun p =>
        match row.lookup p.1 with
        | some v => v == p.2
        | none => false

/-- Whether a value is a string (as opposed to `None`); used to state the
round-trip hypothesis decidably. -/
def isStr : Value → Bool
  | Value.str _ => true
  | Value.null => false

section Lemmas

variable {α β : Type}

lemma except_map_eq_bind (g : α → β) (x : Except PyErr α) :
    Except.map g x = x >>= fun a => Except.ok (g a) := by
  cases x <;> rfl

lemma except_bind_ok (a : α) (f : α → Except PyErr β) :
    (Except.ok a >>= f : Except PyErr β) = f a := rfl

lemma except_bind_error (e : PyErr) (f : α → Except PyErr β) :
    (Except.error e >>= f : Except PyErr β) = Except.error e := rfl

lemma lookup_cons (k q : String) (v : Value) (l : Record) :
    List.lookup q ((k, v) :: l) = if q = k then some v else List.lookup q l := by
  by_cases h : q = k
  · subst h; simp [List.lookup]
  · have hb : (q == k) = false := by simp [h]
    simp [List.lookup, hb, h]

lemma setKey_lookup (acc : Record) (k : String) (v : Value) (q : String) :
    (setKey acc k v).lookup q = if q = k then some v else acc.lookup q := by
  induction acc with
  | nil => simp [setKey, lookup_cons]
  | cons hd tl ih =>
      obtain ⟨k0, v0⟩ := hd
      simp only [setKey]
      by_cases hk : k0 = k
      · rw [if_pos hk, lookup_cons, lookup_cons]
        split_ifs with h1 h2 <;> simp_all
      · rw [if_neg hk, lookup_cons, ih, lookup_cons]
        split_ifs with h1 h2 <;> simp_all

lemma projectLoop_ok_lookup (r : Record) :
    ∀ (fl : List String) (acc : Record),
      (∀ f ∈ fl, (r.lookup f).isSome) →
      ∃ p, projectLoop r fl acc = Except.ok p ∧
        ∀ k, p.lookup k = if k ∈ fl then r.lookup k else acc.lookup k := by
  intro fl
  induction fl with
  | nil => intro acc _; exact ⟨acc, rfl, fun k => by simp⟩
  | cons f fs ih =>
      intro acc h
      have hf : (r.lookup f).isSome := h f (by simp)
      obtain ⟨v, hv⟩ := Option.isSome_iff_exists.mp hf
      obtain ⟨p, hp, hlook⟩ := ih (setKey acc f v) (fun g hg => h g (by simp [hg]))
      refine ⟨p, by simp [projectLoop, hv, hp], fun k => ?_⟩
      rw [hlook k, setKey_lookup]
      by_cases hkfs : k ∈ fs
      · simp [hkfs]
      · by_cases hkf : k = f
        · subst hkf; simp [hkfs, hv]
        · simp [hkfs, hkf]

lemma projectLoop_error (r : Record) :
    ∀ (fl : List String) (acc : Record),
      (∃ f ∈ fl, r.lookup f = none) →
      ∃ f, f ∈ fl ∧ r.lookup f = none ∧
        projectLoop r fl acc = Except.error (PyErr.keyError f) := by
  intro fl
  induction fl with
  | nil => intro acc h; simp at h
  | cons g fs ih =>
      intro acc h
      cases hg : r.lookup g with
      | none => exact ⟨g, by simp, hg, by simp [projectLoop, hg]⟩
      | some v =>
          obtain ⟨f, hf, hfn⟩ := h
          rcases List.mem_cons.mp hf with hfg | hffs
          · subst hfg; rw [hg] at hfn; cases hfn
          · obtain ⟨f0, hf0, hf0n, hf0e⟩ := ih (setKey acc g v) ⟨f, hffs, hfn⟩
            exact ⟨f0, by simp [hf0], hf0n, by simp [projectLoop, hg, hf0e]⟩

lemma projectLoop_congr (r r0 : Record) :
    ∀ (fl : List String) (acc : Record),
      (∀ f ∈ fl, r.lookup f = r0.lookup f) →
      projectLoop r fl acc = projectLoop r0 fl acc := by
  intro fl
  induction fl with
  | nil => intro acc _; rfl
  | cons f fs ih =>
      intro acc h
      have hf : r.lookup f = r0.lookup f := h f (by simp)
      simp only [projectLoop, ← hf]
      cases r.lookup f with
      | none => rfl
      | some v => exact ih (setKey acc f v) fun g hg => h g (by simp [hg])

lemma ftLoop_eq_mapM (t : Option Template) (fl : Option (List String)) :
    ∀ l : List Record,
      ftLoop t fl l
        = List.mapM (fun r => project r fl) (l.filter fun r => matches_template r t) := by
  intro l
  induction l with
  | nil => rfl
  | cons r rest ih =>
      rw [List.filter_cons]
      cases hm : matches_template r t with
      | false => simpa [ftLoop, hm] using ih
      | true =>
          rw [if_pos rfl, List.mapM_cons]
          cases hp : project r fl with
          | error e => simp [ftLoop, hm, hp, except_bind_error]
          | ok p =>
              simp only [ftLoop, hm, if_pos rfl, hp, ih, except_bind_ok,
                except_map_eq_bind]
              cases List.mapM (fun r => project r fl)
                  (rest.filter fun r => matches_template r t) <;> rfl

lemma ftLoop_all_match (t : Option Template) (l : List Record)
    (h : ∀ r ∈ l, matches_template r t = true) :
    ftLoop t none l = Except.ok l := by
  induction l with
  | nil => rfl
  | cons r rest ih =>
      have := ih fun s hs => h s (by simp [hs])
      simp [ftLoop, h r (by simp), project, this, Except.map]

lemma ftLoop_no_match (t : Option Template) (l : List Record)
    (h : ∀ r ∈ l, matches_template r t = false) :
    ftLoop t none l = Except.ok [] := by
  induction l with
  | nil => rfl
  | cons r rest ih =>
      have := ih fun s hs => h s (by simp [hs])
      simp [ftLoop, h r (by simp), this]

end Lemmas

/-- Claim C1: the spec says a duplicate-key `insert` fails with
`DuplicateKeyError` and leaves the row set unchanged, and that a
non-duplicate `insert` adds the record.  The source's `insert` is an
unimplemented stub: for a table `[[("id","1")]]` with key column `id`,
inserting the duplicate record `[("id","1")]` raises nothing (the embedded
result is a plain row list, not an exception), and inserting the fresh
record `[("id","2")]` into the empty table adds nothing. -/
theorem insert_stub_never_raises_never_inserts :
    insert [[("id", Value.str "1")]] [("id", Value.str "1")]
        = [[("id", Value.str "1")]]
      ∧ insert [] [("id", Value.str "2")] = [] :=
  ⟨rfl, rfl⟩

/-- Claim C2: the spec says `find_by_primary_key` returns the unique record
whose key columns equal the given values, and raises `ArityError` on a
length mismatch.  The source is a stub that returns `None` for every input:
with key column `id` and a row keyed `"2"`, looking up `["2"]` yields
`none` instead of the row, and looking up the ill-arity `[]` yields `none`
instead of an error. -/
theorem find_by_primary_key_stub_returns_none :
    find_by_primary_key ["id"]
        [[("id", Value.str "2"), ("name", Value.str "b")]]
        [Value.str "2"] none = none
      ∧ find_by_primary_key ["id"] [[("id", Value.str "2")]] [] none = none :=
  ⟨rfl, rfl⟩

/-- Claim C5: the spec says `delete_by_template(t)` returns the number of
records matching `t` and removes them.  The source is a stub returning `0`
and deleting nothing: with one row and the empty template (which that row
matches), the call returns count `0` and leaves the row in place. -/
theorem delete_by_template_stub_deletes_nothing :
    matches_template [("id", Value.str "1")] (some []) = true
      ∧ delete_by_template [[("id", Value.str "1")]] (some [])
          = (0, [[("id", Value.str "1")]]) :=
  ⟨rfl, rfl⟩

/-- Claim C7: the spec says `save()` on an empty row set fails with
`EmptyTableError` and writes nothing to the backing file.  The source opens
the backing file in mode `"w"`, truncating it, and then raises `IndexError`
from `self._rows[0]`: the file content after the call is empty and the
exception is `IndexError`, not an explicit `EmptyTableError`. -/
theorem save_empty_truncates_file_and_raises_index_error :
    save [] = ([], some PyErr.indexError) :=
  rfl

/-- Claim C10: a template entry binding a column `c` to `None` matches any
record lacking column `c`, because `matches_template` compares against
`row.get(c, None)`; consequently `find_by_template` with such a template
returns records that have no column `c` at all. -/
theorem null_template_matches_absent_column (r : Record) (c : String)
    (h : r.lookup c = none) :
    matches_template r (some [(c, Value.null)]) = true
      ∧ find_by_template [r] (some [(c, Value.null)]) none = Except.ok [r] := by
  have hm : matches_template r (some [(c, Value.null)]) = true := by
    simp [matches_template, rowGet, h]
  refine ⟨hm, ?_⟩
  simpa [find_by_template] using
    ftLoop_all_match (some [(c, Value.null)]) [r] (by simpa using hm)

/-- Witness for C10 at a concrete input: the record `[("a","1")]` has no
column `"b"`, and matches the template binding `"b"` to `None`. -/
theorem null_template_matches_absent_column_witness :
    matches_template [("a", Value.str "1")] (some [("b", Value.null)]) = true :=
  (null_template_matches_absent_column [("a", Value.str "1")] "b"
    (by decide)).1

/-- Counterexample to claim C4 as stated: the record `[("a","1")]` does not
have column `"b"`, yet the source's `matches_template` accepts it against
the template binding `"b"` to `None` (the spec-worded `specMatches` rejects
it), and `find_by_template` with that template — a template binding a
column to a value, `None`, that no record has in that column — returns the
record rather than nothing. -/
theorem matches_template_absent_null_counterexample :
    List.lookup "b" [("a", Value.str "1")] = none
      ∧ matches_template [("a", Value.str "1")] (some [("b", Value.null)]) = true
      ∧ specMatches [("a", Value.str "1")] (some [("b", Value.null)]) = false
      ∧ find_by_template [[("a", Value.str "1")]]
          (some [("b", Value.null)]) none
          = Except.ok [[("a", Value.str "1")]] :=
  ⟨by decide, by decide, by decide, rfl⟩

/-- Claim C4 as amended: a record matches a template iff, for every
(column, value) pair in the template, `row.get(column, None)` — the
record's value at that column, taken as `None` when the column is absent —
equals the pair's value; `find_by_template` with template `None` or with
the empty template returns all rows (in reverse load order); and a template
binding a column to a value that is not `None` and that no record holds at
that column (nor lacks, since the value is not `None`) matches no record. -/
theorem template_matching_amended (rows : List Record) (row : Record)
    (t : Template) (c : String) (v : Value)
    (hv : v ≠ Value.null) (hnone : ∀ r ∈ rows, r.lookup c ≠ some v) :
    (matches_template row (some t) = true ↔ ∀ p ∈ t, rowGet row p.1 = p.2)
      ∧ find_by_template rows none none = Except.ok rows.reverse
      ∧ find_by_template rows (some []) none = Except.ok rows.reverse
      ∧ find_by_template rows (some [(c, v)]) none = Except.ok [] := by
  refine ⟨?_, ?_, ?_, ?_⟩
  · simp only [matches_template, List.all_eq_true, beq_iff_eq]
    constructor
    · intro h p hp; exact (h p hp).symm
    · intro h p hp; exact (h p hp).symm
  · exact ftLoop_all_match none rows.reverse fun r _ => rfl
  · exact ftLoop_all_match (some []) rows.reverse fun r _ => by
      simp [matches_template]
  · refine ftLoop_no_match (some [(c, v)]) rows.reverse fun r hr => ?_
    have hr0 : r ∈ rows := List.mem_reverse.mp hr
    simp only [matches_template, List.all_cons, List.all_nil, Bool.and_true]
    cases hl : r.lookup c with
    | none =>
        simp [rowGet, hl, hv]
    | some w =>
        have hwv : w ≠ v := fun he => hnone r hr0 (he ▸ hl)
        simp only [rowGet, hl, Option.getD_some, beq_eq_false_iff_ne, ne_eq]
        exact fun he => hwv he.symm

/-- Witness for the amended C4 at concrete inputs: on a one-row table the
iff characterization, the two all-row cases, and the no-match case hold
with column `"b"` bound to the string `"x"` that no row has there. -/
theorem template_matching_amended_witness :
    find_by_template [[("a", Value.str "1")]] none none
        = Except.ok [[("a", Value.str "1")]]
      ∧ find_by_template [[("a", Value.str "1")]] (some []) none
        = Except.ok [[("a", Value.str "1")]]
      ∧ find_by_template [[("a", Value.str "1")]]
          (some [("b", Value.str "x")]) none = Except.ok [] := by
  have h := template_matching_amended [[("a", Value.str "1")]]
    [("a", Value.str "1")] [] "b" (Value.str "x") (by decide) (by decide)
  exact ⟨h.2.1, h.2.2.1, h.2.2.2⟩

/-- Claim C3: `find_by_template` returns exactly the rows of the in-memory
row set that match the template, in reverse load order (most recently
loaded first), each projected to the field list — the general equation via
`mapM`, and, when no projection is requested, the literal
filter-of-reversal. -/
theorem find_by_template_reverse_filter_project (rows : List Record)
    (t : Option Template) (fl : Option (List String)) :
    find_by_template rows t fl
        = List.mapM (fun r => project r fl)
            (rows.reverse.filter fun r => matches_template r t)
      ∧ find_by_template rows t none
        = Except.ok (rows.reverse.filter fun r => matches_template r t) := by
  constructor
  · exact ftLoop_eq_mapM t fl rows.reverse
  · rw [find_by_template, ftLoop_eq_mapM t none]
    induction rows.reverse.filter fun r => matches_template r t with
    | nil => rfl
    | cons r rest ih =>
        rw [List.mapM_cons, ih]
        rfl

/-- Claim C8: `_project` returns the original record when the field list is
absent; raises `KeyError` (at some requested field missing from the record)
when the field list names a column the record lacks; and otherwise returns
a record holding exactly the requested columns with the record's values. -/
theorem project_spec (r : Record) (fl : List String) :
    project r none = Except.ok r
      ∧ ((∃ f ∈ fl, r.lookup f = none) →
          ∃ f, f ∈ fl ∧ r.lookup f = none
            ∧ project r (some fl) = Except.error (PyErr.keyError f))
      ∧ ((∀ f ∈ fl, (r.lookup f).isSome) →
          ∃ p, project r (some fl) = Except.ok p
            ∧ (∀ f ∈ fl, p.lookup f = r.lookup f)
            ∧ (∀ k, k ∉ fl → p.lookup k = none)) := by
  refine ⟨rfl, ?_, ?_⟩
  · intro h
    obtain ⟨f, hf, hfn, hfe⟩ := projectLoop_error r fl [] h
    exact ⟨f, hf, hfn, hfe⟩
  · intro h
    obtain ⟨p, hp, hlook⟩ := projectLoop_ok_lookup r fl [] h
    refine ⟨p, hp, fun f hf => by simp [hlook f, hf],
      fun k hk => by simp [hlook k, hk]⟩

/-- Witness for C8 at concrete inputs: projecting `[("id","1")]` to the
absent field list returns it unchanged, and projecting it to `["nope"]`
fails with `KeyError "nope"`. -/
theorem project_spec_witness :
    project [("id", Value.str "1")] none = Except.ok [("id", Value.str "1")]
      ∧ project [("id", Value.str "1")] (some ["nope"])
        = Except.error (PyErr.keyError "nope") := by
  have h := project_spec [("id", Value.str "1")] ["nope"]
  refine ⟨h.1, ?_⟩
  obtain ⟨f, hf, _, he⟩ := h.2.1 ⟨"nope", by decide, by decide⟩
  have hfe : f = "nope" := by simpa using hf
  exact hfe ▸ he

/-- Claim C9: projection is idempotent — whenever projecting `r` to a field
list succeeds with result `p`, projecting `p` to the same field list
succeeds and returns `p` itself. -/
theorem project_idempotent (r p : Record) (fl : Option (List String))
    (h : project r fl = Except.ok p) : project p fl = Except.ok p := by
  cases fl with
  | none =>
      cases h
      rfl
  | some l =>
      have hall : ∀ f ∈ l, (r.lookup f).isSome := by
        intro f hf
        cases hlf : r.lookup f with
        | some v => rfl
        | none =>
            obtain ⟨g, _, _, hge⟩ := projectLoop_error r l [] ⟨f, hf, hlf⟩
            rw [project] at h
            rw [hge] at h
            cases h
      obtain ⟨p0, hp0, hlook⟩ := projectLoop_ok_lookup r l [] hall
      have hpp : p0 = p := by
        rw [project] at h
        rw [hp0] at h
        cases h
        rfl
      subst hpp
      have hcongr : projectLoop p0 l [] = projectLoop r l [] := by
        refine projectLoop_congr p0 r l [] fun f hf => ?_
        simp [hlook f, hf]
      rw [project, hcongr, hp0]

lemma lookup_map_fst (r : Record) (hnd : (r.map Prod.fst).Nodup) :
    (r.map Prod.fst).map (fun k => r.lookup k) = r.map fun p => some p.2 := by
  induction r with
  | nil => rfl
  | cons hd tl ih =>
      obtain ⟨k, v⟩ := hd
      obtain ⟨hk, hnd0⟩ := List.nodup_cons.mp hnd
      simp only [List.map_cons, lookup_cons, if_pos rfl]
      refine congrArg (List.cons (some v)) ?_
      rw [← ih hnd0]
      refine List.map_congr_left fun q hq => ?_
      have hqk : q ≠ k := fun he => hk (he ▸ hq)
      rw [if_neg hqk]

lemma writeRowCells_self (r : Record) (hnd : (r.map Prod.fst).Nodup) :
    writeRowCells (r.map Prod.fst) r = r.map fun p => cellOf (some p.2) := by
  rw [writeRowCells,
    show (fun h => cellOf (r.lookup h)) = cellOf ∘ (fun k => r.lookup k) from rfl,
    ← List.map_map, lookup_map_fst r hnd, List.map_map]
  rfl

lemma readRow_writeRowCells (r : Record) (hs : ∀ p ∈ r, isStr p.2 = true)
    (hnd : (r.map Prod.fst).Nodup) :
    readRow (r.map Prod.fst) (writeRowCells (r.map Prod.fst) r) = r := by
  rw [writeRowCells_self r hnd, readRow]
  have hlen : ((r.map fun p => cellOf (some p.2)).length) = (r.map Prod.fst).length := by
    simp
  rw [hlen, List.drop_length, List.map_nil, List.append_nil, List.zip_map',
    List.map_map]
  have : ∀ p ∈ r,
      ((fun p => (p.1, Value.str p.2)) ∘ fun p : String × Value =>
        (p.1, cellOf (some p.2))) p = id p := by
    intro p hp
    have hsp := hs p hp
    simp only [Function.comp_apply, id_eq]
    cases hv : p.2 with
    | null => rw [hv] at hsp; cases hsp
    | str s =>
        simp only [cellOf]
        rw [← hv]
  rw [List.map_congr_left this, List.map_id]

lemma hasExtraField_self (header : List String) (r : Record)
    (hk : r.map Prod.fst = header) : hasExtraField header r = false := by
  simp only [hasExtraField, Bool.not_eq_false', List.all_eq_true]
  intro p hp
  have : p.1 ∈ header := hk ▸ List.mem_map_of_mem Prod.fst hp
  exact List.elem_eq_true_of_mem this

lemma saveLoop_ok (header : List String) (rows : List Record)
    (hall : ∀ r ∈ rows, hasExtraField header r = false) :
    saveLoop header rows = (rows.map (writeRowCells header), none) := by
  induction rows with
  | nil => rfl
  | cons r rest ih =>
      rw [saveLoop, hall r (by simp), ih fun s hs => hall s (by simp [hs])]
      rfl

lemma univNewlinesAux_id (l : List Char) (h : ∀ c ∈ l, c ≠ '\r') :
    univNewlinesAux l = l := by
  induction l with
  | nil => rfl
  | cons c tl ih =>
      cases tl with
      | nil =>
          have hc : c ≠ '\r' := h c (by simp)
          simp [univNewlinesAux, hc]
      | cons c2 rest =>
          have hc : c ≠ '\r' := h c (by simp)
          simp only [univNewlinesAux]
          rw [if_neg hc, ih fun x hx => h x (by simp [hx])]

lemma univNewlines_id (s : String) (h : noCR s = true) : univNewlines s = s := by
  simp only [noCR, List.all_eq_true, bne_iff_ne, ne_eq] at h
  rw [univNewlines, univNewlinesAux_id s.data h]

lemma isStr_of_strNoCR (v : Value) (h : strNoCR v = true) : isStr v = true := by
  cases v with
  | str s => rfl
  | null => simp [strNoCR] at h

lemma translateLine_keys (ks : List String) (h : ∀ k ∈ ks, noCR k = true) :
    translateLine ks = ks := by
  have hc : ks.map univNewlines = ks.map id :=
    List.map_congr_left fun k hk => univNewlines_id k (h k hk)
  rw [translateLine, hc, List.map_id]

lemma translateLine_write (r : Record) (hs : ∀ p ∈ r, strNoCR p.2 = true)
    (hnd : (r.map Prod.fst).Nodup) :
    translateLine (writeRowCells (r.map Prod.fst) r)
      = writeRowCells (r.map Prod.fst) r := by
  rw [writeRowCells_self r hnd, translateLine, List.map_map]
  refine List.map_congr_left fun p hp => ?_
  simp only [Function.comp_apply]
  cases hv : p.2 with
  | null =>
      have hsp := hs p hp
      rw [hv] at hsp
      simp [strNoCR] at hsp
  | str s =>
      have hsp := hs p hp
      rw [hv] at hsp
      simp only [cellOf]
      exact univNewlines_id s (by simpa [strNoCR] using hsp)

/-- Counterexample to claim C6 as stated: two one-row tables whose
save-then-reload is not equivalent to the saved row set.  The record
holding `None` at column `id` saves without error but reloads holding the
empty string, since `DictWriter` writes `None` as an empty field and
`DictReader` reads every field as a string; and the record holding the
string `"a\rb"` saves without error but reloads as `"a\nb"`, since the
files are opened without suppressing newline translation, which rewrites
the carriage return inside the quoted field to a line feed on read. -/
theorem save_load_lossy_counterexample :
    (save [[("id", Value.null)]]).2 = none
      ∧ load (save [[("id", Value.null)]]).1 = [[("id", Value.str "")]]
      ∧ load (save [[("id", Value.null)]]).1 ≠ [[("id", Value.null)]]
      ∧ (save [[("id", Value.str "a\rb")]]).2 = none
      ∧ load (save [[("id", Value.str "a\rb")]]).1
          = [[("id", Value.str "a\nb")]]
      ∧ load (save [[("id", Value.str "a\rb")]]).1
          ≠ [[("id", Value.str "a\rb")]] :=
  ⟨rfl, by decide, by decide, rfl, by decide, by decide⟩

/-- Claim C6 as amended: for every table with a non-empty row set whose
first record is non-empty, in which every record has the same column list
(in the same order, with distinct, carriage-return-free names) as the
first record and every value is a string containing no carriage return,
`save()` succeeds and a fresh load of the written file yields exactly the
saved row sequence, in the same order. -/
theorem save_load_roundtrip (rows : List Record) (r0 : Record)
    (rest : List Record) (h1 : rows = r0 :: rest)
    (h2 : ∀ r ∈ rows, r.map Prod.fst = r0.map Prod.fst)
    (h3 : ∀ r ∈ rows, ∀ p ∈ r, strNoCR p.2 = true)
    (h4 : r0 ≠ []) (h5 : (r0.map Prod.fst).Nodup)
    (h6 : ∀ k ∈ r0.map Prod.fst, noCR k = true) :
    (save rows).2 = none ∧ load (save rows).1 = rows := by
  subst h1
  have hall : ∀ r ∈ r0 :: rest, hasExtraField (r0.map Prod.fst) r = false :=
    fun r hr => hasExtraField_self (r0.map Prod.fst) r (h2 r hr)
  have hsave : save (r0 :: rest)
      = ((r0.map Prod.fst) :: (r0 :: rest).map (writeRowCells (r0.map Prod.fst)),
          none) := by
    rw [save, saveLoop_ok (r0.map Prod.fst) (r0 :: rest) hall]
  refine ⟨by rw [hsave], ?_⟩
  rw [hsave, load]
  rw [translateLine_keys (r0.map Prod.fst) h6]
  have hlines : ((r0 :: rest).map (writeRowCells (r0.map Prod.fst))).map translateLine
      = (r0 :: rest).map (writeRowCells (r0.map Prod.fst)) := by
    rw [List.map_map]
    refine List.map_congr_left fun r hr => ?_
    simp only [Function.comp_apply]
    rw [← h2 r hr]
    exact translateLine_write r (h3 r hr) (by rw [h2 r hr]; exact h5)
  rw [hlines]
  have hne : ∀ l ∈ (r0 :: rest).map (writeRowCells (r0.map Prod.fst)),
      (!l.isEmpty) = true := by
    intro l hl
    obtain ⟨r, hr, hrl⟩ := List.mem_map.mp hl
    have : l.length = r0.length := by
      rw [← hrl, writeRowCells]
      simp
    have hr0 : 0 < l.length := by
      rw [this]
      exact List.length_pos.mpr h4
    simp [List.isEmpty_iff, List.length_pos.mp hr0]
  rw [List.filter_eq_self.mpr hne, List.map_map]
  have : ∀ r ∈ r0 :: rest,
      (readRow (r0.map Prod.fst) ∘ writeRowCells (r0.map Prod.fst)) r = id r := by
    intro r hr
    have hk : r.map Prod.fst = r0.map Prod.fst := h2 r hr
    have hnd : (r.map Prod.fst).Nodup := by rw [hk]; exact h5
    have hrt := readRow_writeRowCells r
      (fun p hp => isStr_of_strNoCR p.2 (h3 r hr p hp)) hnd
    rw [hk] at hrt
    exact hrt
  rw [List.map_congr_left this, List.map_id]

/-- Witness for the amended C6 at a concrete input: a two-row table with
carriage-return-free string values and uniform columns `id`, `name` saves
without error and reloads to exactly the same row sequence. -/
theorem save_load_roundtrip_witness :
    (save [[("id", Value.str "1"), ("name", Value.str "a")],
        [("id", Value.str "2"), ("name", Value.str "b")]]).2 = none
      ∧ load (save [[("id", Value.str "1"), ("name", Value.str "a")],
          [("id", Value.str "2"), ("name", Value.str "b")]]).1
        = [[("id", Value.str "1"), ("name", Value.str "a")],
            [("id", Value.str "2"), ("name", Value.str "b")]] :=
  save_load_roundtrip
    [[("id", Value.str "1"), ("name", Value.str "a")],
      [("id", Value.str "2"), ("name", Value.str "b")]]
    [("id", Value.str "1"), ("name", Value.str "a")]
    [[("id", Value.str "2"), ("name", Value.str "b")]]
    rfl (by decide) (by decide) (by decide) (by decide) (by decide)

/-- Witness for C9 at a concrete input: projecting
`[("id","1"), ("name","a")]` to `["id"]` yields `[("id","1")]`, and
projecting that again to `["id"]` returns it unchanged. -/
theorem project_idempotent_witness :
    project [("id", Value.str "1")] (some ["id"])
      = Except.ok [("id", Value.str "1")] :=
  project_idempotent [("id", Value.str "1"), ("name", Value.str "a")]
    [("id", Value.str "1")] (some ["id"]) rfl

end CSVDataTable
